import Mathlib

/-!
# `Index.Search` of `pkg/core/search.go`

A shallow embedding of the one function of the file, `func (index *Index) Search`,
together with the properties its specification states about it.

The function talks to collaborators that live outside the file: the plan builders
and aggregation helpers of package `uquery`, the ceiling `startup.MAX_RESULTS`, the
index engine (`bluge`) and `encoding/json`.  None of them is fixed here: the values
they work on are type parameters (`Payloads`) and their behaviour is a parameter
(`Env`, `Index`, `Reader`, `Cursor`, `DocumentMatch`), so every theorem holds for
whatever the collaborators do.

Go features that matter for the function and how they are embedded:

* a result pair `(v, err)` is a Lean pair whose second component is `Option GoError`
  (`none` is Go's `nil` error);
* a call through a `nil` interface value panics, and so may a method of a `nil`
  pointer: a run of `Search` ends in `Outcome.ret` or in `Outcome.panic`;
* `defer reader.Close()` runs when the function returns and when it panics;
* the write through the pointer `iQuery` is returned as the descriptor after the call;
* the calls made on the engine are recorded, in order, in a trace.
-/

set_option autoImplicit false
set_option linter.dupNamespace false

namespace Zinc

/-! ## Values -/

/-- A Go byte slice. -/
abbrev Bytes := List (Fin 256)

/-- A Go float64, carried by its IEEE-754 bit pattern: the function only copies such
values.  The zero value `0.0` is the pattern `0`. -/
abbrev Float64 := Nat

/-- A non-nil Go error; the field is what the method `Error()` returns. -/
structure GoError where
  Error : String
deriving DecidableEq, Repr

/-- A Go `time.Time`, by the two numeric fields of its representation (the location
pointer is left out).  The zero value has both fields zero. -/
structure Time where
  wall : Nat
  ext : Int
deriving DecidableEq, Repr

/-- The zero value of `time.Time`, what `var timestamp time.Time` holds. -/
def Time.zero : Time := ⟨0, 0⟩

/-- The types of the values that `Search` passes along without looking inside. -/
structure Payloads where
  /-- A `bluge.SearchRequest`, the search plan. -/
  Plan : Type
  /-- What `index.GetStoredMapping()` returns. -/
  Mapping : Type
  /-- The value type of the map `iQuery.Aggregations`. -/
  AggregationParams : Type
  /-- The value type `v1.AggregationResponse` of the map `resp.Aggregations`. -/
  AggregationResponse : Type
  /-- A non-nil `map[string]interface{}`, a decoded document body. -/
  Document : Type
  /-- What `dmi.Aggregations()` returns, the aggregation accumulator. -/
  Bucket : Type
  /-- The fields of `v1.ZincQuery` that `Search` itself never reads. -/
  QueryParams : Type

/-- A Go map with string keys, as an association list; the nil map and the empty map
are both `[]` (the function only takes `len` of its maps and deletes from them). -/
abbrev GoMap (V : Type) := List (String × V)

/-- The Go statement `delete(m, key)`. -/
def GoMap.delete {V : Type} (m : GoMap V) (key : String) : GoMap V :=
  m.filter (fun kv => !(kv.1 == key))

/-- The value stored under a key, if any. -/
def GoMap.get? {V : Type} (m : GoMap V) (key : String) : Option V :=
  List.lookup key m

/-- The outcome of running Go code that may panic. -/
inductive Outcome (α : Type) where
  | ret (a : α)
  | panic

/-- The descriptor `v1.ZincQuery`: the three fields `Search` reads and the rest. -/
structure ZincQuery (P : Payloads) where
  SearchType : String
  MaxResults : Int
  Aggregations : GoMap P.AggregationParams
  Query : P.QueryParams

/-- One result record `v1.Hit` (its field `Type` is written `Type_`). -/
structure Hit (P : Payloads) where
  Index : String
  Type_ : String
  ID : Bytes
  Score : Float64
  Timestamp : Time
  Source : Option P.Document

/-- The record `v1.Total`. -/
structure Total where
  Value : Int
deriving DecidableEq, Repr

/-- The record `v1.Hits`. -/
structure Hits (P : Payloads) where
  Total : Total
  MaxScore : Float64
  Hits : List (Hit P)

/-- The response `v1.SearchResponse`. -/
structure SearchResponse (P : Payloads) where
  Took : Int
  Hits : Hits P
  Aggregations : GoMap P.AggregationResponse
  Error : String

/-- The zero value of `v1.Hits`. -/
def zeroHits (P : Payloads) : Hits P := ⟨⟨0⟩, 0, []⟩

/-- The composite literal `v1.SearchResponse{Error: msg}`: every other field zero. -/
def errorResponse (P : Payloads) (msg : String) : SearchResponse P :=
  ⟨0, zeroHits P, [], msg⟩

/-! ## Collaborators -/

/-- The eleven plan builders of package `uquery` that the switch can call. -/
inductive Builder where
  | AllDocuments
  | WildcardQuery
  | FuzzyQuery
  | TermQuery
  | DateRangeQuery
  | MatchAllQuery
  | MatchQuery
  | MatchPhraseQuery
  | MultiPhraseQuery
  | PrefixQuery
  | QueryStringQuery
deriving DecidableEq, Repr

/-- One scored match `*search.DocumentMatch`: its score, the stored fields its
`VisitStoredFields` presents to a visitor, in order, and the error that call returns. -/
structure DocumentMatch where
  Score : Float64
  storedFields : List (String × Bytes)
  visitErr : Option GoError
deriving DecidableEq, Repr

/-- What one call of `dmi.Next()` returns: a match or nil, and an error or nil. -/
abbrev NextResult := Option DocumentMatch × Option GoError

/-- A non-nil result cursor `search.DocumentMatchIterator`: what its successive
`Next()` calls return (once the list is used up, `Next()` returns `(nil, nil)`: the
result set is finite) and the accumulator `Aggregations()` hands out. -/
structure Cursor (P : Payloads) where
  script : List NextResult
  Aggregations : P.Bucket

/-- The reader value `*bluge.Reader` returned by `index.Writer.Reader()`, nil or not,
by what its two methods do when `Search` calls them: `Search(ctx, request)` returns a
cursor (a nil interface value is `none`) and an error, or panics; `Close()` returns an
error or panics. -/
structure Reader (P : Payloads) where
  Search : P.Plan → Outcome (Option (Cursor P) × Option GoError)
  Close : Outcome (Option GoError)

/-- The receiver `index *Index`: its name, the result of `index.Writer.Reader()` and
the result of `index.GetStoredMapping()`. -/
structure Index (P : Payloads) where
  Name : String
  WriterReader : Reader P × Option GoError
  GetStoredMapping : P.Mapping × Option GoError

/-- The package-level collaborators. -/
structure Env (P : Payloads) where
  /-- The ceiling `startup.MAX_RESULTS`. -/
  MAX_RESULTS : Int
  /-- The plan builders `uquery.AllDocuments`, `uquery.WildcardQuery`, ...; each is
  handed the pointer `iQuery` and is taken to read the descriptor only. -/
  uquery : Builder → ZincQuery P → P.Plan × Option GoError
  /-- The binder `uquery.AddAggregations`; it writes into the request it is given, so
  the request after the call is returned too. -/
  AddAggregations : P.Plan → GoMap P.AggregationParams → P.Mapping → P.Plan × Option GoError
  /-- The projector `uquery.ParseAggregations`. -/
  ParseAggregations : P.Bucket → GoMap P.AggregationResponse × Option GoError
  /-- The decoder `bluge.DecodeDateTime`. -/
  DecodeDateTime : Bytes → Time × Option GoError
  /-- The call `json.Unmarshal(value, &result)`: the new content of `result`, given
  its old content, and the error. -/
  Unmarshal : Bytes → Option P.Document → Option P.Document × Option GoError
  /-- The method `Duration()` of the accumulator, in nanoseconds. -/
  Duration : P.Bucket → Int
  /-- The method `Count()` of the accumulator, a `uint64`. -/
  Count : P.Bucket → Nat
  /-- The method `Metric(name)` of the accumulator. -/
  Metric : P.Bucket → String → Float64

/-- A call that `Search` makes on a collaborator. -/
inductive Event (P : Payloads) where
  /-- A plan builder is called with this descriptor. -/
  | build (b : Builder) (iQuery : ZincQuery P)
  /-- `uquery.AddAggregations` is called. -/
  | bind
  /-- `index.Writer.Reader()` is called. -/
  | acquire
  /-- `reader.Search` is called. -/
  | search
  /-- `reader.Close()` is called. -/
  | close

/-- Is the event a call of `index.Writer.Reader()`? -/
def Event.isAcquire {P : Payloads} : Event P → Bool
  | .acquire => true
  | _ => false

/-- Is the event a call of `reader.Search`? -/
def Event.isSearch {P : Payloads} : Event P → Bool
  | .search => true
  | _ => false

/-- Is the event a call of `reader.Close()`? -/
def Event.isClose {P : Payloads} : Event P → Bool
  | .close => true
  | _ => false

/-- A run of `Search`: how it ended, the calls it made, and the caller's descriptor
after the call. -/
structure Run (P : Payloads) where
  outcome : Outcome (SearchResponse P × Option GoError)
  trace : List (Event P)
  iQuery : ZincQuery P

/-! ## The function -/

variable {P : Payloads}

/-- Lines 19-21: `if iQuery.MaxResults > startup.MAX_RESULTS { iQuery.MaxResults = startup.MAX_RESULTS }`. -/
def clampMaxResults (env : Env P) (iQuery : ZincQuery P) : ZincQuery P :=
  if iQuery.MaxResults > env.MAX_RESULTS then
    { iQuery with MaxResults := env.MAX_RESULTS }
  else iQuery

/-- Lines 24-50: the builder that `switch iQuery.SearchType` calls. -/
def selectBuilder (SearchType : String) : Builder :=
  match SearchType with
  | "alldocuments" => .AllDocuments
  | "wildcard" => .WildcardQuery
  | "fuzzy" => .FuzzyQuery
  | "term" => .TermQuery
  | "daterange" => .DateRangeQuery
  | "matchall" => .MatchAllQuery
  | "match" => .MatchQuery
  | "matchphrase" => .MatchPhraseQuery
  | "multiphrase" => .MultiPhraseQuery
  | "prefix" => .PrefixQuery
  | "querystring" => .QueryStringQuery
  | _ => .AllDocuments

/-- The three variables `result`, `id` and `timestamp` that the visitor closure of
lines 85-97 writes. -/
structure Captured (P : Payloads) where
  result : Option P.Document
  id : Bytes
  timestamp : Time

/-- Lines 82-84: the three variables as declared, each at its zero value. -/
def Captured.init (P : Payloads) : Captured P := ⟨none, [], Time.zero⟩

/-- Lines 85-97: the visitor closure, as a step on the captured variables; the
boolean is the closure's return value. -/
def visitor (env : Env P) (c : Captured P) (field : String) (value : Bytes) :
    Captured P × Bool :=
  if field = "_source" then
    ({ c with result := (env.Unmarshal value c.result).1 }, true)
  else if field = "_id" then
    ({ c with id := value }, true)
  else if field = "@timestamp" then
    ({ c with timestamp := (env.DecodeDateTime value).1 }, true)
  else
    (c, true)

/-- The engine's side of `VisitStoredFields`: the visitor is given the stored fields
one by one, and the visit goes on for as long as the visitor returns true. -/
def visitFields {σ : Type} (visit : σ → String → Bytes → σ × Bool) :
    σ → List (String × Bytes) → σ
  | s, [] => s
  | s, (field, value) :: rest =>
    match visit s field value with
    | (s', true) => visitFields visit s' rest
    | (s', false) => s'

/-- The method `next.VisitStoredFields(visitor)`: the state the visitor leaves and
the error the call returns. -/
def DocumentMatch.VisitStoredFields {σ : Type} (next : DocumentMatch)
    (visit : σ → String → Bytes → σ × Bool) (init : σ) : σ × Option GoError :=
  (visitFields visit init next.storedFields, next.visitErr)

/-- Lines 82-109: the body of the loop up to the `append`, the Hit built from one match.
The error of `VisitStoredFields` is logged and nothing else. -/
def makeHit (env : Env P) (index : Index P) (next : DocumentMatch) : Hit P :=
  let c := (next.VisitStoredFields (visitor env) (Captured.init P)).1
  { Index := index.Name
    Type_ := index.Name
    ID := c.id
    Score := next.Score
    Timestamp := c.timestamp
    Source := c.result }

/-- Lines 80-113: the loop `for err == nil && next != nil`, entered with the result
`(next, err)` of the latest `dmi.Next()`, the results `script` of the calls still to
come and the hits gathered so far.  It returns `Hits` and `err` as the loop leaves them. -/
def hitLoop (env : Env P) (index : Index P) :
    Option DocumentMatch → Option GoError → List NextResult → List (Hit P) →
    List (Hit P) × Option GoError
  | some next, none, script, Hits =>
    let hit := makeHit env index next
    match script with
    | [] => (Hits ++ [hit], none)
    | (next', err') :: rest => hitLoop env index next' err' rest (Hits ++ [hit])
  | _, err, _, Hits => (Hits, err)

/-- The first `dmi.Next()` of line 80 followed by the loop of lines 81-113. -/
def drain (env : Env P) (index : Index P) (dmi : Cursor P) : List (Hit P) × Option GoError :=
  match dmi.script with
  | [] => ([], none)
  | (next, err) :: rest => hitLoop env index next err rest []

/-- The Go conversion `int(x)` of a `uint64`, on a 64-bit platform. -/
def intOfUint64 (x : Nat) : Int :=
  if x % 2 ^ 64 < 2 ^ 63 then (x % 2 ^ 64 : Nat) else ((x % 2 ^ 64 : Nat) : Int) - 2 ^ 64

/-- The method `Milliseconds()` of `time.Duration`: nanoseconds divided by one
million, rounded toward zero. -/
def Milliseconds (d : Int) : Int := Int.tdiv d 1000000

/-- Lines 129-139: the aggregations of the response. -/
def projectAggregations (env : Env P) (iQuery : ZincQuery P) (bucket : P.Bucket) :
    GoMap P.AggregationResponse :=
  if iQuery.Aggregations.length > 0 then
    let parsed := (env.ParseAggregations bucket).1
    if parsed.length > 0 then
      ((parsed.delete "count").delete "duration").delete "max_score"
    else parsed
  else []

/-- Lines 24-50: the switch, the call of the selected builder on the descriptor. -/
def buildRequest (env : Env P) (iQuery : ZincQuery P) : P.Plan × Option GoError :=
  env.uquery (selectBuilder iQuery.SearchType) iQuery

/-- Lines 59-60: the stored mapping is fetched, its error dropped, and
`uquery.AddAggregations(searchRequest, iQuery.Aggregations, mapping)` is called. -/
def bindAggregations (env : Env P) (index : Index P) (iQuery : ZincQuery P)
    (searchRequest : P.Plan) : P.Plan × Option GoError :=
  let mapping := index.GetStoredMapping.1
  env.AddAggregations searchRequest iQuery.Aggregations mapping

/-- Lines 118-139: the response assembled from the hits and the accumulator. -/
def assemble (env : Env P) (iQuery : ZincQuery P) (dmi : Cursor P) (Hits : List (Hit P)) :
    SearchResponse P :=
  { Took := Milliseconds (env.Duration dmi.Aggregations)
    Hits :=
      { Total := { Value := intOfUint64 (env.Count dmi.Aggregations) }
        MaxScore := env.Metric dmi.Aggregations "max_score"
        Hits := Hits }
    Aggregations := projectAggregations env iQuery dmi.Aggregations
    Error := "" }

/-- Lines 73-141: what runs after `defer reader.Close()`, up to the final `return`,
with the calls made on the reader. -/
def searchBody (env : Env P) (index : Index P) (iQuery : ZincQuery P) (reader : Reader P)
    (searchRequest : P.Plan) : Outcome (SearchResponse P × Option GoError) × List (Event P) :=
  match reader.Search searchRequest with
  | .panic => (.panic, [.search])
  | .ret (dmi, _err) =>
    -- a non-nil `err` is logged
    match dmi with
    | none => (.panic, [.search]) -- `dmi.Next()` on a nil interface value
    | some dmi =>
      -- a non-nil `err` left by the loop is logged
      let Hits := (drain env index dmi).1
      (.ret (assemble env iQuery dmi Hits, none), [.search])

/-- The deferred `reader.Close()`: it runs when the body has returned and when it has
panicked; if it panics itself, so does the function. -/
def runDeferredClose (reader : Reader P)
    (body : Outcome (SearchResponse P × Option GoError) × List (Event P)) :
    Outcome (SearchResponse P × Option GoError) × List (Event P) :=
  match reader.Close with
  | .ret _ => (body.1, body.2 ++ [.close])
  | .panic => (.panic, body.2 ++ [.close])

/-- The function `func (index *Index) Search(iQuery *v1.ZincQuery) (v1.SearchResponse, error)`. -/
def Search (env : Env P) (index : Index P) (iQuery : ZincQuery P) : Run P :=
  let iQuery := clampMaxResults env iQuery
  match buildRequest env iQuery with
  | (_, some err) =>
    { outcome := .ret (errorResponse P err.Error, some err)
      trace := [.build (selectBuilder iQuery.SearchType) iQuery]
      iQuery := iQuery }
  | (searchRequest, none) =>
    match bindAggregations env index iQuery searchRequest with
    | (_, some err) =>
      { outcome := .ret (errorResponse P err.Error, some err)
        trace := [.build (selectBuilder iQuery.SearchType) iQuery, .bind]
        iQuery := iQuery }
    | (searchRequest, none) =>
      -- a non-nil error of `index.Writer.Reader()` is logged
      let reader := index.WriterReader.1
      let done := runDeferredClose reader (searchBody env index iQuery reader searchRequest)
      { outcome := done.1
        trace := [.build (selectBuilder iQuery.SearchType) iQuery, .bind, .acquire] ++ done.2
        iQuery := iQuery }

/-! ## Concrete collaborators, for evaluating the function -/

/-- Payload types for concrete runs: a plan is the builder that made it and the
`MaxResults` it was built with, an aggregation request says whether its field exists,
the accumulator is the map it decodes to. -/
def demoPayloads : Payloads :=
  { Plan := Builder × Int
    Mapping := Unit
    AggregationParams := Bool
    AggregationResponse := Nat
    Document := Bytes
    Bucket := GoMap Nat
    QueryParams := Unit }

/-- Concrete collaborators: a ceiling of 100, builders that succeed except the term
builder, a binder that rejects an aggregation on a missing field, a date decoder that
wants exactly one byte and returns the zero time otherwise. -/
def demoEnv : Env demoPayloads :=
  { MAX_RESULTS := 100
    uquery := fun b iQuery =>
      ((b, iQuery.MaxResults), if b = .TermQuery then some ⟨"term is required"⟩ else none)
    AddAggregations := fun plan aggs _ =>
      (plan, if aggs.all (fun kv => kv.2) then none else some ⟨"field not found"⟩)
    ParseAggregations := fun bucket => (bucket, none)
    DecodeDateTime := fun value =>
      match value with
      | [b] => (⟨b.val, 0⟩, none)
      | _ => (Time.zero, some ⟨"bad datetime"⟩)
    Unmarshal := fun value _ => (some value, none)
    Duration := fun _ => 2500000
    Count := fun bucket => bucket.length
    Metric := fun _ _ => 7 }

/-- A match with identifier `"1"`, a body, a timestamp and one more stored field. -/
def demoMatch1 : DocumentMatch :=
  { Score := 9
    storedFields := [("_id", [49]), ("_source", [123, 125]), ("@timestamp", [5]), ("extra", [0])]
    visitErr := none }

/-- A match with identifier `"2"` whose stored-field visit fails after the identifier. -/
def demoMatch2 : DocumentMatch :=
  { Score := 8
    storedFields := [("_id", [50])]
    visitErr := some ⟨"corrupt stored fields"⟩ }

/-- A match with identifier `"3"` and a timestamp that does not decode. -/
def demoMatch3 : DocumentMatch :=
  { Score := 7
    storedFields := [("_id", [51]), ("@timestamp", [1, 2])]
    visitErr := none }

/-- A cursor that yields two matches, then fails to advance; a third match would follow. -/
def demoCursor : Cursor demoPayloads :=
  { script := [(some demoMatch1, none), (some demoMatch2, none),
      (none, some ⟨"cursor failed"⟩), (some demoMatch3, none)]
    Aggregations := [("count", 3), ("by_user", 4), ("duration", 5), ("max_score", 6)] }

/-- A working reader: its search returns `demoCursor`. -/
def demoReader : Reader demoPayloads :=
  { Search := fun _ => .ret (some demoCursor, none)
    Close := .ret none }

/-- An index whose snapshot acquisition succeeds. -/
def demoIndex : Index demoPayloads :=
  { Name := "books"
    WriterReader := (demoReader, none)
    GetStoredMapping := ((), none) }

/-- A nil `*bluge.Reader`: both methods read a field of their receiver, so both panic. -/
def nilReader : Reader demoPayloads :=
  { Search := fun _ => .panic
    Close := .panic }

/-- An index whose snapshot acquisition fails: `Writer.Reader()` returns `(nil, err)`. -/
def closedIndex : Index demoPayloads :=
  { Name := "books"
    WriterReader := (nilReader, some ⟨"error getting nreal time reader"⟩)
    GetStoredMapping := ((), none) }

/-- A reader whose search fails the way `bluge.Reader.Search` does: `(nil, err)`. -/
def failingReader : Reader demoPayloads :=
  { Search := fun _ => .ret (none, some ⟨"searcher failed"⟩)
    Close := .ret none }

/-- An index whose snapshot is acquired and whose plan execution fails. -/
def failingIndex : Index demoPayloads :=
  { Name := "books"
    WriterReader := (failingReader, none)
    GetStoredMapping := ((), none) }

/-- A match-all descriptor with the given `MaxResults` and aggregations. -/
def demoQuery (MaxResults : Int) (aggs : GoMap Bool) : ZincQuery demoPayloads :=
  { SearchType := "matchall", MaxResults := MaxResults, Aggregations := aggs, Query := () }

/-! ## Notions of the specification -/

/-- The recognized `SearchType` tags with the builder the specification gives each. -/
def recognizedTags : List (String × Builder) :=
  [("alldocuments", .AllDocuments), ("wildcard", .WildcardQuery), ("fuzzy", .FuzzyQuery),
   ("term", .TermQuery), ("daterange", .DateRangeQuery), ("matchall", .MatchAllQuery),
   ("match", .MatchQuery), ("matchphrase", .MatchPhraseQuery),
   ("multiphrase", .MultiPhraseQuery), ("prefix", .PrefixQuery),
   ("querystring", .QueryStringQuery)]

/-- The reserved aggregation names. -/
def reservedNames : List String := ["count", "duration", "max_score"]

/-- The keys of a map. -/
def GoMap.keys {V : Type} (m : GoMap V) : List String := m.map Prod.fst

/-- The matches a cursor yields before its first nil match or its first advancement
error, in the order it yields them. -/
def yieldedMatches (script : List NextResult) : List DocumentMatch :=
  (script.takeWhile (fun r => r.1.isSome && r.2.isNone)).filterMap Prod.fst

/-- The value of the last stored field of the given name that a visit presents. -/
def lastField (name : String) (fields : List (String × Bytes)) : Option Bytes :=
  ((fields.filter (fun fv => fv.1 == name)).getLast?).map Prod.snd

/-- The match with every stored field dropped whose name is none of `_source`, `_id`
and `@timestamp`. -/
def keepRecognized (next : DocumentMatch) : DocumentMatch :=
  { Score := next.Score
    storedFields := next.storedFields.filter
      (fun fv => decide (fv.1 ∈ ["_source", "_id", "@timestamp"]))
    visitErr := next.visitErr }

/-- Does the plan build and do the aggregations bind, for this descriptor? -/
def buildsAndBinds (env : Env P) (index : Index P) (iQuery : ZincQuery P) : Prop :=
  (buildRequest env (clampMaxResults env iQuery)).2 = none ∧
  (bindAggregations env index (clampMaxResults env iQuery)
    (buildRequest env (clampMaxResults env iQuery)).1).2 = none

/-- The plan handed to `reader.Search`: built, then bound. -/
def boundPlan (env : Env P) (index : Index P) (iQuery : ZincQuery P) : P.Plan :=
  (bindAggregations env index (clampMaxResults env iQuery)
    (buildRequest env (clampMaxResults env iQuery)).1).1

/-! ## The clamp -/

@[simp] theorem clampMaxResults_SearchType (env : Env P) (iQuery : ZincQuery P) :
    (clampMaxResults env iQuery).SearchType = iQuery.SearchType := by
  unfold clampMaxResults; split <;> rfl

@[simp] theorem clampMaxResults_Aggregations (env : Env P) (iQuery : ZincQuery P) :
    (clampMaxResults env iQuery).Aggregations = iQuery.Aggregations := by
  unfold clampMaxResults; split <;> rfl

theorem clampMaxResults_MaxResults (env : Env P) (iQuery : ZincQuery P) :
    (clampMaxResults env iQuery).MaxResults = min iQuery.MaxResults env.MAX_RESULTS := by
  unfold clampMaxResults
  split
  · simp only []; omega
  · omega

theorem clampMaxResults_idem (env : Env P) (iQuery : ZincQuery P) :
    clampMaxResults env (clampMaxResults env iQuery) = clampMaxResults env iQuery := by
  have h := clampMaxResults_MaxResults env iQuery
  generalize clampMaxResults env iQuery = q at h ⊢
  unfold clampMaxResults
  rw [if_neg]
  omega

/-- The descriptor that `Search` leaves behind is the clamped one. -/
theorem Search_iQuery (env : Env P) (index : Index P) (iQuery : ZincQuery P) :
    (Search env index iQuery).iQuery = clampMaxResults env iQuery := by
  unfold Search
  simp only []
  split
  · rfl
  · split <;> rfl

/-- The first call that `Search` makes is the selected builder, on the clamped descriptor. -/
theorem Search_trace_head (env : Env P) (index : Index P) (iQuery : ZincQuery P) :
    ∃ rest, (Search env index iQuery).trace =
      .build (selectBuilder iQuery.SearchType) (clampMaxResults env iQuery) :: rest ∧
      ∀ b q, Event.build b q ∉ rest := by
  unfold Search
  simp only [clampMaxResults_SearchType]
  split
  · exact ⟨[], rfl, by simp⟩
  · split
    · exact ⟨[.bind], rfl, by simp⟩
    · refine ⟨_, rfl, ?_⟩
      intro b q
      unfold runDeferredClose searchBody
      split <;> split <;> (try split) <;> simp

/-! ## The exits of `Search` -/

theorem Search_of_build_error (env : Env P) (index : Index P) (iQuery : ZincQuery P)
    (e : GoError) (h : (buildRequest env (clampMaxResults env iQuery)).2 = some e) :
    Search env index iQuery =
      { outcome := .ret (errorResponse P e.Error, some e)
        trace := [.build (selectBuilder iQuery.SearchType) (clampMaxResults env iQuery)]
        iQuery := clampMaxResults env iQuery } := by
  unfold Search
  simp only [clampMaxResults_SearchType]
  split
  · rename_i heq
    rw [heq] at h
    cases h
    rfl
  · rename_i heq
    rw [heq] at h
    cases h

theorem Search_of_bind_error (env : Env P) (index : Index P) (iQuery : ZincQuery P)
    (e : GoError) (hb : (buildRequest env (clampMaxResults env iQuery)).2 = none)
    (h : (bindAggregations env index (clampMaxResults env iQuery)
      (buildRequest env (clampMaxResults env iQuery)).1).2 = some e) :
    Search env index iQuery =
      { outcome := .ret (errorResponse P e.Error, some e)
        trace := [.build (selectBuilder iQuery.SearchType) (clampMaxResults env iQuery), .bind]
        iQuery := clampMaxResults env iQuery } := by
  unfold Search
  simp only [clampMaxResults_SearchType]
  split
  · rename_i heq
    rw [heq] at hb
    cases hb
  · rename_i heq
    rw [heq] at h
    simp only at h
    split
    · rename_i heq2
      rw [heq2] at h
      cases h
      rfl
    · rename_i heq2
      rw [heq2] at h
      cases h

theorem Search_of_buildsAndBinds (env : Env P) (index : Index P) (iQuery : ZincQuery P)
    (h : buildsAndBinds env index iQuery) :
    Search env index iQuery =
      { outcome := (runDeferredClose index.WriterReader.1
          (searchBody env index (clampMaxResults env iQuery) index.WriterReader.1
            (boundPlan env index iQuery))).1
        trace := [.build (selectBuilder iQuery.SearchType) (clampMaxResults env iQuery),
          .bind, .acquire] ++
          (runDeferredClose index.WriterReader.1
            (searchBody env index (clampMaxResults env iQuery) index.WriterReader.1
              (boundPlan env index iQuery))).2
        iQuery := clampMaxResults env iQuery } := by
  obtain ⟨hb, ha⟩ := h
  unfold boundPlan
  unfold Search
  simp only [clampMaxResults_SearchType]
  split
  · rename_i heq
    rw [heq] at hb
    cases hb
  · rename_i heq
    rw [heq] at ha ⊢
    simp only at ha ⊢
    split
    · rename_i heq2
      rw [heq2] at ha
      cases ha
    · rename_i heq2
      rw [heq2]

theorem selectBuilder_default (tag : String) (h : tag ∉ recognizedTags.map Prod.fst) :
    selectBuilder tag = .AllDocuments := by
  simp only [recognizedTags, List.map, List.mem_cons, List.mem_singleton, List.not_mem_nil,
    or_false, not_or] at h
  unfold selectBuilder
  split <;> simp_all

/-! ## Build and bind failures (C1) -/

/-- C1: when the selected plan builder returns an error `e`, or the plan builds and
`uquery.AddAggregations` returns an error `e`, `Search` returns the error `e` and the
response `SearchResponse{Error: e.Error()}`, whose `Took`, `Hits` and `Aggregations`
are zero-valued, and its trace holds no call of `Writer.Reader`, of `reader.Search` or
of `reader.Close`. -/
theorem Search_build_or_bind_error (env : Env P) (index : Index P) (iQuery : ZincQuery P)
    (e : GoError)
    (h : (buildRequest env (clampMaxResults env iQuery)).2 = some e ∨
      ((buildRequest env (clampMaxResults env iQuery)).2 = none ∧
        (bindAggregations env index (clampMaxResults env iQuery)
          (buildRequest env (clampMaxResults env iQuery)).1).2 = some e)) :
    (Search env index iQuery).outcome =
        .ret ({ Took := 0, Hits := { Total := { Value := 0 }, MaxScore := 0, Hits := [] },
                Aggregations := [], Error := e.Error }, some e) ∧
      (∀ ev ∈ (Search env index iQuery).trace,
        ev.isAcquire = false ∧ ev.isSearch = false ∧ ev.isClose = false) := by
  rcases h with h | ⟨hb, h⟩
  · rw [Search_of_build_error env index iQuery e h]
    refine ⟨rfl, ?_⟩
    intro ev hev
    simp only [List.mem_singleton] at hev
    subst hev
    exact ⟨rfl, rfl, rfl⟩
  · rw [Search_of_bind_error env index iQuery e hb h]
    refine ⟨rfl, ?_⟩
    intro ev hev
    simp only [List.mem_cons, List.mem_singleton, List.not_mem_nil, or_false] at hev
    rcases hev with hev | hev <;> subst hev <;> exact ⟨rfl, rfl, rfl⟩

/-- C1 at concrete inputs: a term query whose builder fails, and a match-all query
with an aggregation on a missing field. -/
theorem Search_build_or_bind_error_witness :
    (Search demoEnv demoIndex
        { SearchType := "term", MaxResults := 10, Aggregations := [], Query := () }).outcome =
      .ret ({ Took := 0, Hits := { Total := { Value := 0 }, MaxScore := 0, Hits := [] },
              Aggregations := [], Error := "term is required" }, some ⟨"term is required"⟩) ∧
    (Search demoEnv demoIndex (demoQuery 10 [("by_user", false)])).outcome =
      .ret ({ Took := 0, Hits := { Total := { Value := 0 }, MaxScore := 0, Hits := [] },
              Aggregations := [], Error := "field not found" }, some ⟨"field not found"⟩) :=
  ⟨(Search_build_or_bind_error demoEnv demoIndex
      { SearchType := "term", MaxResults := 10, Aggregations := [], Query := () }
      ⟨"term is required"⟩ (Or.inl (by decide))).1,
   (Search_build_or_bind_error demoEnv demoIndex (demoQuery 10 [("by_user", false)])
      ⟨"field not found"⟩ (Or.inr ⟨by decide, by decide⟩)).1⟩

/-! ## Dispatch (C2) -/

/-- C2: the first call of `Search` is a plan builder, on the clamped descriptor, and
it makes no other builder call; for each of the eleven recognized tags the builder
called is the one of that tag and the plan and build error are its results; for every
other tag, the empty string included, the builder is `uquery.AllDocuments` and the
plan and build error are what it returns for that descriptor, so that when it returns
no error `Search` goes on to bind the aggregations. -/
theorem Search_dispatch (env : Env P) (index : Index P) (iQuery : ZincQuery P) :
    (∃ rest, (Search env index iQuery).trace =
        .build (selectBuilder iQuery.SearchType) (clampMaxResults env iQuery) :: rest ∧
        ∀ b q, Event.build b q ∉ rest) ∧
    (∀ tb ∈ recognizedTags, iQuery.SearchType = tb.1 →
      selectBuilder iQuery.SearchType = tb.2 ∧
      buildRequest env (clampMaxResults env iQuery) =
        env.uquery tb.2 (clampMaxResults env iQuery)) ∧
    (iQuery.SearchType ∉ recognizedTags.map Prod.fst →
      selectBuilder iQuery.SearchType = .AllDocuments ∧
      buildRequest env (clampMaxResults env iQuery) =
        env.uquery .AllDocuments (clampMaxResults env iQuery) ∧
      ((env.uquery .AllDocuments (clampMaxResults env iQuery)).2 = none →
        ∃ rest, (Search env index iQuery).trace =
          .build .AllDocuments (clampMaxResults env iQuery) :: .bind :: rest)) := by
  refine ⟨Search_trace_head env index iQuery, ?_, ?_⟩
  · intro tb htb htag
    have hsel : selectBuilder iQuery.SearchType = tb.2 := by
      rw [htag]
      simp only [recognizedTags, List.mem_cons, List.mem_singleton, List.not_mem_nil,
        or_false] at htb
      rcases htb with h | h | h | h | h | h | h | h | h | h | h <;> subst h <;> rfl
    refine ⟨hsel, ?_⟩
    unfold buildRequest
    rw [clampMaxResults_SearchType, hsel]
  · intro htag
    have hsel := selectBuilder_default iQuery.SearchType htag
    have hbuild : buildRequest env (clampMaxResults env iQuery) =
        env.uquery .AllDocuments (clampMaxResults env iQuery) := by
      unfold buildRequest
      rw [clampMaxResults_SearchType, hsel]
    refine ⟨hsel, hbuild, ?_⟩
    intro hok
    rw [← hbuild] at hok
    cases hbind : (bindAggregations env index (clampMaxResults env iQuery)
        (buildRequest env (clampMaxResults env iQuery)).1).2 with
    | some e =>
      rw [Search_of_bind_error env index iQuery e hok hbind, hsel]
      exact ⟨[], rfl⟩
    | none =>
      rw [Search_of_buildsAndBinds env index iQuery ⟨hok, hbind⟩, hsel]
      exact ⟨_, rfl⟩

/-- C2 at concrete inputs: the tag `"prefix"` selects the prefix builder, and the
empty tag gives the plan of `uquery.AllDocuments`. -/
theorem Search_dispatch_witness :
    buildRequest demoEnv (clampMaxResults demoEnv
        { SearchType := "prefix", MaxResults := 10, Aggregations := [], Query := () }) =
      ((Builder.PrefixQuery, 10), none) ∧
    buildRequest demoEnv (clampMaxResults demoEnv
        { SearchType := "", MaxResults := 10, Aggregations := [], Query := () }) =
      ((Builder.AllDocuments, 10), none) :=
  ⟨((Search_dispatch demoEnv demoIndex
      { SearchType := "prefix", MaxResults := 10, Aggregations := [], Query := () }).2.1
      ("prefix", .PrefixQuery) (by decide) rfl).2,
   ((Search_dispatch demoEnv demoIndex
      { SearchType := "", MaxResults := 10, Aggregations := [], Query := () }).2.2
      (by decide)).2.1⟩

/-! ## The result-count ceiling (C3, C4) -/

/-- C3: for a descriptor whose `MaxResults` is above `startup.MAX_RESULTS`, the one
builder call of `Search` sees a descriptor whose `MaxResults` is the ceiling, and so is
the `MaxResults` of the caller's descriptor after the call; clamping the clamped
descriptor again changes nothing, and neither does running `Search` on it. -/
theorem Search_MaxResults_clamped (env : Env P) (index : Index P) (iQuery : ZincQuery P)
    (h : iQuery.MaxResults > env.MAX_RESULTS) :
    (∃ q rest, (Search env index iQuery).trace =
        .build (selectBuilder iQuery.SearchType) q :: rest ∧
        q.MaxResults = env.MAX_RESULTS ∧ ∀ b q', Event.build b q' ∉ rest) ∧
    (Search env index iQuery).iQuery.MaxResults = env.MAX_RESULTS ∧
    clampMaxResults env (Search env index iQuery).iQuery = (Search env index iQuery).iQuery ∧
    Search env index (Search env index iQuery).iQuery = Search env index iQuery := by
  have hmax : (clampMaxResults env iQuery).MaxResults = env.MAX_RESULTS := by
    rw [clampMaxResults_MaxResults]; omega
  obtain ⟨rest, hrest, hno⟩ := Search_trace_head env index iQuery
  refine ⟨⟨_, rest, hrest, hmax, hno⟩, ?_, ?_, ?_⟩
  · rw [Search_iQuery, hmax]
  · rw [Search_iQuery, clampMaxResults_idem]
  · rw [Search_iQuery]
    unfold Search
    simp only [clampMaxResults_idem]

/-- C3 at a concrete input: 500 requested under a ceiling of 100. -/
theorem Search_MaxResults_clamped_witness :
    (Search demoEnv demoIndex (demoQuery 500 [])).iQuery.MaxResults = 100 :=
  (Search_MaxResults_clamped demoEnv demoIndex (demoQuery 500 []) (by decide)).2.1

/-- C4 as stated fails: a descriptor with `MaxResults = -1` reaches the builder
unchanged, with a negative `MaxResults`. -/
theorem Search_MaxResults_negative :
    (Search demoEnv demoIndex (demoQuery (-1) [])).trace.head? =
        some (.build .MatchAllQuery (demoQuery (-1) [])) ∧
      (demoQuery (-1) []).MaxResults < 0 ∧
      (Search demoEnv demoIndex (demoQuery (-1) [])).iQuery.MaxResults < 0 :=
  ⟨rfl, by decide, by decide⟩

/-- C4, amended: the `MaxResults` that the builder call of `Search` sees is the smaller
of the caller's value and the ceiling; it never exceeds the ceiling, and it is
non-negative exactly when the caller's value and the ceiling both are. -/
theorem Search_MaxResults_min (env : Env P) (index : Index P) (iQuery : ZincQuery P) :
    ∃ q rest, (Search env index iQuery).trace =
        .build (selectBuilder iQuery.SearchType) q :: rest ∧
      (∀ b q', Event.build b q' ∉ rest) ∧
      q.MaxResults = min iQuery.MaxResults env.MAX_RESULTS ∧
      q.MaxResults ≤ env.MAX_RESULTS ∧
      (0 ≤ q.MaxResults ↔ 0 ≤ iQuery.MaxResults ∧ 0 ≤ env.MAX_RESULTS) := by
  obtain ⟨rest, hrest, hno⟩ := Search_trace_head env index iQuery
  have hmin := clampMaxResults_MaxResults env iQuery
  refine ⟨_, rest, hrest, hno, hmin, ?_, ?_⟩
  · rw [hmin]; omega
  · rw [hmin]; omega

/-! ## The run past the binder -/

theorem searchBody_trace (env : Env P) (index : Index P) (iQuery : ZincQuery P)
    (reader : Reader P) (plan : P.Plan) :
    (searchBody env index iQuery reader plan).2 = [.search] := by
  unfold searchBody
  split
  · rfl
  · split <;> rfl

theorem runDeferredClose_trace (reader : Reader P)
    (body : Outcome (SearchResponse P × Option GoError) × List (Event P)) :
    (runDeferredClose reader body).2 = body.2 ++ [.close] := by
  unfold runDeferredClose
  split <;> rfl

theorem Search_trace_of_buildsAndBinds (env : Env P) (index : Index P) (iQuery : ZincQuery P)
    (h : buildsAndBinds env index iQuery) :
    (Search env index iQuery).trace =
      [.build (selectBuilder iQuery.SearchType) (clampMaxResults env iQuery),
        .bind, .acquire, .search, .close] := by
  rw [Search_of_buildsAndBinds env index iQuery h]
  simp only [runDeferredClose_trace, searchBody_trace]
  rfl

/-- The run when the reader hands back a cursor and its `Close` returns. -/
theorem Search_outcome_of_cursor (env : Env P) (index : Index P) (iQuery : ZincQuery P)
    (dmi : Cursor P) (e c : Option GoError)
    (h : buildsAndBinds env index iQuery)
    (hs : index.WriterReader.1.Search (boundPlan env index iQuery) = .ret (some dmi, e))
    (hc : index.WriterReader.1.Close = .ret c) :
    (Search env index iQuery).outcome =
      .ret (assemble env (clampMaxResults env iQuery) dmi (drain env index dmi).1, none) := by
  rw [Search_of_buildsAndBinds env index iQuery h]
  simp only [runDeferredClose, searchBody, hs, hc]

/-- Every run ends in one of three ways: the build or bind error exit, a panic, or
the final `return resp, nil` with the response assembled from a cursor. -/
theorem Search_outcome_cases (env : Env P) (index : Index P) (iQuery : ZincQuery P) :
    (∃ e, (Search env index iQuery).outcome = .ret (errorResponse P e.Error, some e)) ∨
    (Search env index iQuery).outcome = .panic ∨
    (∃ dmi, (Search env index iQuery).outcome =
      .ret (assemble env (clampMaxResults env iQuery) dmi (drain env index dmi).1, none)) := by
  cases hb : (buildRequest env (clampMaxResults env iQuery)).2 with
  | some e => exact Or.inl ⟨e, by rw [Search_of_build_error env index iQuery e hb]⟩
  | none =>
    cases ha : (bindAggregations env index (clampMaxResults env iQuery)
        (buildRequest env (clampMaxResults env iQuery)).1).2 with
    | some e => exact Or.inl ⟨e, by rw [Search_of_bind_error env index iQuery e hb ha]⟩
    | none =>
      right
      rw [Search_of_buildsAndBinds env index iQuery ⟨hb, ha⟩]
      simp only [runDeferredClose, searchBody]
      cases index.WriterReader.1.Close with
      | panic => exact Or.inl rfl
      | ret c =>
        cases index.WriterReader.1.Search (boundPlan env index iQuery) with
        | panic => exact Or.inl rfl
        | ret r =>
          obtain ⟨dmi, e⟩ := r
          cases dmi with
          | none => exact Or.inl rfl
          | some dmi => exact Or.inr ⟨dmi, rfl⟩

/-! ## Reserved aggregation names (C5) -/

theorem GoMap.mem_delete {V : Type} (m : GoMap V) (key : String) (kv : String × V) :
    kv ∈ m.delete key ↔ kv ∈ m ∧ kv.1 ≠ key := by
  simp [GoMap.delete]

theorem GoMap.get?_delete {V : Type} (m : GoMap V) (key k : String) (h : k ≠ key) :
    (m.delete key).get? k = m.get? k := by
  induction m with
  | nil => rfl
  | cons kv rest ih =>
    obtain ⟨k', v⟩ := kv
    unfold GoMap.delete GoMap.get? at *
    by_cases hk : k' = key
    · subst hk
      have hne : (k == k') = false := by simpa using h
      simp only [List.filter_cons, beq_self_eq_true, Bool.not_true, List.lookup_cons, hne]
      simpa using ih
    · have hne : (k' == key) = false := by simpa using hk
      simp only [List.filter_cons, hne, Bool.not_false, if_true, List.lookup_cons]
      cases k == k' with
      | true => rfl
      | false => simpa using ih

theorem mem_projectAggregations (env : Env P) (iQuery : ZincQuery P) (bucket : P.Bucket)
    (kv : String × P.AggregationResponse) :
    kv ∈ projectAggregations env iQuery bucket ↔
      iQuery.Aggregations ≠ [] ∧ kv ∈ (env.ParseAggregations bucket).1 ∧
        kv.1 ∉ reservedNames := by
  unfold projectAggregations reservedNames
  by_cases hq : iQuery.Aggregations = []
  · simp [hq]
  · have hlen : iQuery.Aggregations.length > 0 := List.length_pos.mpr hq
    simp only [hlen, if_true]
    by_cases hp : (env.ParseAggregations bucket).1 = []
    · simp [hp]
    · have hlen2 : (env.ParseAggregations bucket).1.length > 0 := List.length_pos.mpr hp
      simp only [hlen2, if_true, GoMap.mem_delete]
      simp only [List.mem_cons, List.mem_singleton, List.not_mem_nil, or_false, not_or]
      tauto

theorem get?_projectAggregations (env : Env P) (iQuery : ZincQuery P) (bucket : P.Bucket)
    (hq : iQuery.Aggregations ≠ []) (k : String) (hk : k ∉ reservedNames) :
    (projectAggregations env iQuery bucket).get? k = (env.ParseAggregations bucket).1.get? k := by
  simp only [reservedNames, List.mem_cons, List.mem_singleton, List.not_mem_nil, or_false,
    not_or] at hk
  unfold projectAggregations
  have hlen : iQuery.Aggregations.length > 0 := List.length_pos.mpr hq
  simp only [hlen, if_true]
  split
  · rw [GoMap.get?_delete _ _ _ hk.2.2, GoMap.get?_delete _ _ _ hk.2.1,
      GoMap.get?_delete _ _ _ hk.1]
  · rfl

/-- C5: whatever response `Search` returns, its `Aggregations` holds none of the keys
`count`, `duration` and `max_score`; and when the request declared aggregations and
the run reaches the projector, the entries of the response are exactly the entries of
the mapping returned by `uquery.ParseAggregations` whose key is not reserved, each key
with the value it had there. -/
theorem Search_reserved_names_removed (env : Env P) (index : Index P)
    (iQuery : ZincQuery P) :
    (∀ resp err, (Search env index iQuery).outcome = .ret (resp, err) →
      ∀ k ∈ reservedNames, k ∉ resp.Aggregations.keys) ∧
    (∀ (dmi : Cursor P) (e c : Option GoError), buildsAndBinds env index iQuery →
      index.WriterReader.1.Search (boundPlan env index iQuery) = .ret (some dmi, e) →
      index.WriterReader.1.Close = .ret c →
      iQuery.Aggregations ≠ [] →
      ∃ resp, (Search env index iQuery).outcome = .ret (resp, none) ∧
        (∀ kv, kv ∈ resp.Aggregations ↔
          kv ∈ (env.ParseAggregations dmi.Aggregations).1 ∧ kv.1 ∉ reservedNames) ∧
        (∀ k, k ∉ reservedNames →
          resp.Aggregations.get? k = (env.ParseAggregations dmi.Aggregations).1.get? k)) := by
  constructor
  · intro resp err hret k hk hmem
    simp only [GoMap.keys, List.mem_map] at hmem
    obtain ⟨kv, hkv, rfl⟩ := hmem
    rcases Search_outcome_cases env index iQuery with ⟨e, h⟩ | h | ⟨dmi, h⟩
    · rw [h] at hret
      cases hret
      simp [errorResponse] at hkv
    · rw [h] at hret
      cases hret
    · rw [h] at hret
      cases hret
      simp only [assemble] at hkv
      exact ((mem_projectAggregations env _ _ kv).mp hkv).2.2 hk
  · intro dmi e c h hs hc hq
    refine ⟨_, Search_outcome_of_cursor env index iQuery dmi e c h hs hc, ?_, ?_⟩
    · intro kv
      simp only [assemble]
      rw [mem_projectAggregations]
      simp only [clampMaxResults_Aggregations]
      tauto
    · intro k hk
      simp only [assemble]
      exact get?_projectAggregations env _ _ (by simpa using hq) k hk

/-- C5 at a concrete input: the accumulator decodes to `count`, `by_user`, `duration`
and `max_score`, and the response keeps `by_user` alone. -/
theorem Search_reserved_names_removed_witness :
    ∃ resp, (Search demoEnv demoIndex (demoQuery 10 [("by_user", true)])).outcome =
        .ret (resp, none) ∧
      (∀ kv, kv ∈ resp.Aggregations ↔
        kv ∈ ([("count", 3), ("by_user", 4), ("duration", 5), ("max_score", 6)] : GoMap Nat) ∧
          kv.1 ∉ reservedNames) ∧
      (∀ k, k ∉ reservedNames → resp.Aggregations.get? k =
        GoMap.get? ([("count", 3), ("by_user", 4), ("duration", 5), ("max_score", 6)] : GoMap Nat)
          k) :=
  (Search_reserved_names_removed demoEnv demoIndex (demoQuery 10 [("by_user", true)])).2
    demoCursor none none (And.intro rfl rfl) rfl rfl (List.cons_ne_nil _ _)

/-! ## The hit loop (C8) -/

theorem yieldedMatches_cons_some (m : DocumentMatch) (rest : List NextResult) :
    yieldedMatches ((some m, none) :: rest) = m :: yieldedMatches rest := by
  simp [yieldedMatches, List.takeWhile_cons, List.filterMap_cons]

theorem yieldedMatches_cons_error (next : Option DocumentMatch) (e : GoError)
    (rest : List NextResult) : yieldedMatches ((next, some e) :: rest) = [] := by
  simp [yieldedMatches, List.takeWhile_cons]

theorem yieldedMatches_cons_nil (err : Option GoError) (rest : List NextResult) :
    yieldedMatches ((none, err) :: rest) = [] := by
  simp [yieldedMatches, List.takeWhile_cons]

theorem hitLoop_eq (env : Env P) (index : Index P) (rest : List NextResult) :
    ∀ (next : Option DocumentMatch) (err : Option GoError) (acc : List (Hit P)),
      (hitLoop env index next err rest acc).1 =
        acc ++ (yieldedMatches ((next, err) :: rest)).map (makeHit env index) := by
  induction rest with
  | nil =>
    intro next err acc
    cases next with
    | none => simp [hitLoop, yieldedMatches_cons_nil]
    | some m =>
      cases err with
      | none => simp [hitLoop, yieldedMatches_cons_some, yieldedMatches]
      | some e => simp [hitLoop, yieldedMatches_cons_error]
  | cons r rest ih =>
    intro next err acc
    obtain ⟨next', err'⟩ := r
    cases next with
    | none => simp [hitLoop, yieldedMatches_cons_nil]
    | some m =>
      cases err with
      | none =>
        simp only [hitLoop, yieldedMatches_cons_some, List.map_cons]
        rw [ih]
        simp
      | some e => simp [hitLoop, yieldedMatches_cons_error]

theorem drain_eq (env : Env P) (index : Index P) (dmi : Cursor P) :
    (drain env index dmi).1 = (yieldedMatches dmi.script).map (makeHit env index) := by
  unfold drain
  split
  · rename_i h
    rw [h]
    rfl
  · rename_i next err rest h
    rw [h, hitLoop_eq]
    rfl

/-- C8: when the run reaches the cursor, the response's `Hits.Hits` is the list of the
Hits built from the matches the cursor yields before its first nil match or first
advancement error, one per match and in that order.  An advancement error keeps the
hits gathered before it; the error of a match's stored-field visit plays no part, so
such a match has its Hit and the matches after it have theirs. -/
theorem Search_hits (env : Env P) (index : Index P) (iQuery : ZincQuery P)
    (dmi : Cursor P) (e c : Option GoError)
    (h : buildsAndBinds env index iQuery)
    (hs : index.WriterReader.1.Search (boundPlan env index iQuery) = .ret (some dmi, e))
    (hc : index.WriterReader.1.Close = .ret c) :
    ∃ resp, (Search env index iQuery).outcome = .ret (resp, none) ∧
      resp.Hits.Hits = (yieldedMatches dmi.script).map (makeHit env index) ∧
      resp.Hits.Hits.length = (yieldedMatches dmi.script).length ∧
      (∀ (pre : List DocumentMatch) (stop : NextResult) (post : List NextResult),
        dmi.script = pre.map (fun m => (some m, none)) ++ stop :: post →
        (stop.1 = none ∨ stop.2 ≠ none) →
        resp.Hits.Hits = pre.map (makeHit env index)) ∧
      (∀ (all : List DocumentMatch), dmi.script = all.map (fun m => (some m, none)) →
        resp.Hits.Hits = all.map (makeHit env index)) := by
  refine ⟨_, Search_outcome_of_cursor env index iQuery dmi e c h hs hc, ?_, ?_, ?_, ?_⟩
  · exact drain_eq env index dmi
  · simp only [assemble]
    rw [drain_eq, List.length_map]
  · intro pre stop post hscript hstop
    simp only [assemble]
    rw [drain_eq, hscript]
    congr 1
    clear hscript
    induction pre with
    | nil =>
      obtain ⟨next, err⟩ := stop
      rcases hstop with hn | he
      · simp only at hn
        subst hn
        exact yieldedMatches_cons_nil err post
      · cases err with
        | none => exact absurd rfl he
        | some e' => exact yieldedMatches_cons_error next e' post
    | cons m pre ih =>
      simp only [List.map_cons, List.cons_append]
      rw [yieldedMatches_cons_some, ih]
  · intro all hscript
    simp only [assemble]
    rw [drain_eq, hscript]
    congr 1
    clear hscript
    induction all with
    | nil => rfl
    | cons m all ih =>
      simp only [List.map_cons]
      rw [yieldedMatches_cons_some, ih]

/-- C8 at a concrete cursor: two matches, the second with a failing stored-field
visit, then an advancement error, then a match that is never reached. -/
theorem Search_hits_witness :
    ∃ resp, (Search demoEnv demoIndex (demoQuery 10 [])).outcome = .ret (resp, none) ∧
      resp.Hits.Hits = [makeHit demoEnv demoIndex demoMatch1,
        makeHit demoEnv demoIndex demoMatch2] :=
  match Search_hits demoEnv demoIndex (demoQuery 10 []) demoCursor none none
      (And.intro rfl rfl) rfl rfl with
  | ⟨resp, hret, _, _, hpre, _⟩ =>
    ⟨resp, hret, hpre [demoMatch1, demoMatch2] (none, some ⟨"cursor failed"⟩)
      [(some demoMatch3, none)] rfl (Or.inl rfl)⟩

/-! ## The Hit of one match (C10) -/

theorem visitor_continues (env : Env P) (c : Captured P) (field : String) (value : Bytes) :
    (visitor env c field value).2 = true := by
  unfold visitor
  split
  · rfl
  · split
    · rfl
    · split <;> rfl

theorem visitor_other (env : Env P) (c : Captured P) (field : String) (value : Bytes)
    (h : field ∉ ["_source", "_id", "@timestamp"]) : (visitor env c field value).1 = c := by
  simp only [List.mem_cons, List.mem_singleton, List.not_mem_nil, or_false, not_or] at h
  unfold visitor
  simp [h.1, h.2.1, h.2.2]

theorem visitFields_visitor_cons (env : Env P) (c : Captured P) (field : String)
    (value : Bytes) (rest : List (String × Bytes)) :
    visitFields (visitor env) c ((field, value) :: rest) =
      visitFields (visitor env) (visitor env c field value).1 rest := by
  have h := visitor_continues env c field value
  conv_lhs => unfold visitFields
  generalize visitor env c field value = r at h ⊢
  obtain ⟨c', b⟩ := r
  simp only at h
  subst h
  rfl

theorem lastField_cons (name field : String) (value : Bytes) (rest : List (String × Bytes)) :
    lastField name ((field, value) :: rest) =
      match lastField name rest with
      | some x => some x
      | none => if field = name then some value else none := by
  unfold lastField
  by_cases hf : field = name
  · subst hf
    simp only [List.filter_cons, beq_self_eq_true, if_true, List.getLast?_cons]
    cases (List.filter (fun fv => fv.1 == field) rest).getLast? <;> rfl
  · have hne : (field == name) = false := by simpa using hf
    simp only [List.filter_cons, hne, Bool.false_eq_true, if_false, hf]
    cases (List.filter (fun fv => fv.1 == name) rest).getLast? <;> rfl

theorem visitFields_id (env : Env P) (fields : List (String × Bytes)) :
    ∀ c : Captured P, (visitFields (visitor env) c fields).id =
      (lastField "_id" fields).getD c.id := by
  induction fields with
  | nil => intro c; rfl
  | cons fv rest ih =>
    intro c
    obtain ⟨field, value⟩ := fv
    rw [visitFields_visitor_cons, ih, lastField_cons]
    cases lastField "_id" rest with
    | some x => rfl
    | none =>
      simp only [Option.getD_none]
      unfold visitor
      by_cases h1 : field = "_source"
      · subst h1; simp
      · by_cases h2 : field = "_id"
        · subst h2; simp
        · by_cases h3 : field = "@timestamp"
          · subst h3; simp
          · simp [h1, h2, h3]

theorem visitFields_timestamp (env : Env P) (fields : List (String × Bytes)) :
    ∀ c : Captured P, (visitFields (visitor env) c fields).timestamp =
      match lastField "@timestamp" fields with
      | some value => (env.DecodeDateTime value).1
      | none => c.timestamp := by
  induction fields with
  | nil => intro c; rfl
  | cons fv rest ih =>
    intro c
    obtain ⟨field, value⟩ := fv
    rw [visitFields_visitor_cons, ih, lastField_cons]
    cases lastField "@timestamp" rest with
    | some x => rfl
    | none =>
      simp only
      unfold visitor
      by_cases h1 : field = "_source"
      · subst h1; simp
      · by_cases h2 : field = "_id"
        · subst h2; simp
        · by_cases h3 : field = "@timestamp"
          · subst h3; simp
          · simp [h1, h2, h3]

theorem visitFields_filter (env : Env P) (fields : List (String × Bytes)) :
    ∀ c : Captured P,
      visitFields (visitor env) c
          (fields.filter (fun fv => decide (fv.1 ∈ ["_source", "_id", "@timestamp"]))) =
        visitFields (visitor env) c fields := by
  induction fields with
  | nil => intro c; rfl
  | cons fv rest ih =>
    intro c
    obtain ⟨field, value⟩ := fv
    by_cases h : field ∈ ["_source", "_id", "@timestamp"]
    · rw [List.filter_cons_of_pos (by simpa using h), visitFields_visitor_cons,
        visitFields_visitor_cons, ih]
    · rw [List.filter_cons_of_neg (by simpa using h), visitFields_visitor_cons,
        visitor_other env c field value h, ih]

/-- C10: the Hit that the loop body builds from a match has `Index` and `Type` equal
to the index name, `Score` equal to the match's score, `ID` equal to the bytes of the
(last) `_id` stored field the visit presents, and `Timestamp` equal to the zero time
when the visit presents no `@timestamp` field or when the value of that field fails to
decode (the decoder `bluge.DecodeDateTime` returning the zero time whenever it returns
an error); a stored field of any other name leaves the visitor's variables as they
are, so dropping all such fields leaves the Hit unchanged; and the visitor returns
true for every field. -/
theorem makeHit_fields (env : Env P) (index : Index P) (next : DocumentMatch)
    (hdec : ∀ value, (env.DecodeDateTime value).2 ≠ none →
      (env.DecodeDateTime value).1 = Time.zero) :
    (makeHit env index next).Index = index.Name ∧
    (makeHit env index next).Type_ = index.Name ∧
    (makeHit env index next).Score = next.Score ∧
    (makeHit env index next).ID = (lastField "_id" next.storedFields).getD [] ∧
    (∀ i, lastField "_id" next.storedFields = some i → (makeHit env index next).ID = i) ∧
    (lastField "@timestamp" next.storedFields = none →
      (makeHit env index next).Timestamp = Time.zero) ∧
    (∀ value, lastField "@timestamp" next.storedFields = some value →
      (makeHit env index next).Timestamp = (env.DecodeDateTime value).1 ∧
      ((env.DecodeDateTime value).2 ≠ none →
        (makeHit env index next).Timestamp = Time.zero)) ∧
    (∀ (c : Captured P) (field : String) (value : Bytes),
      field ∉ ["_source", "_id", "@timestamp"] → (visitor env c field value).1 = c) ∧
    makeHit env index (keepRecognized next) = makeHit env index next ∧
    (∀ (c : Captured P) (field : String) (value : Bytes),
      (visitor env c field value).2 = true) := by
  have hid : (makeHit env index next).ID = (lastField "_id" next.storedFields).getD [] := by
    simp only [makeHit, DocumentMatch.VisitStoredFields]
    rw [visitFields_id]
    rfl
  have hts : (makeHit env index next).Timestamp =
      match lastField "@timestamp" next.storedFields with
      | some value => (env.DecodeDateTime value).1
      | none => Time.zero := by
    simp only [makeHit, DocumentMatch.VisitStoredFields]
    rw [visitFields_timestamp]
    rfl
  refine ⟨rfl, rfl, rfl, hid, ?_, ?_, ?_, ?_, ?_, ?_⟩
  · intro i hi
    rw [hid, hi]
    rfl
  · intro hnone
    rw [hts, hnone]
  · intro value hsome
    have heq : (makeHit env index next).Timestamp = (env.DecodeDateTime value).1 := by
      rw [hts, hsome]
    exact ⟨heq, fun hfail => by rw [heq, hdec value hfail]⟩
  · exact fun c field value h => visitor_other env c field value h
  · simp only [makeHit, DocumentMatch.VisitStoredFields, keepRecognized]
    rw [visitFields_filter]
  · exact fun c field value => visitor_continues env c field value

/-- C10 at concrete matches: the first has identifier `"1"` and a foreign stored
field, the third has identifier `"3"` and a timestamp that does not decode. -/
theorem makeHit_fields_witness :
    (makeHit demoEnv demoIndex demoMatch1).ID = [49] ∧
    (makeHit demoEnv demoIndex demoMatch3).ID = [51] ∧
    (makeHit demoEnv demoIndex demoMatch3).Timestamp = Time.zero :=
  have hdec : ∀ value, (demoEnv.DecodeDateTime value).2 ≠ none →
      (demoEnv.DecodeDateTime value).1 = Time.zero := by
    intro value
    match value with
    | [] => intro _; rfl
    | [b] => intro h; exact absurd rfl h
    | _ :: _ :: _ => intro _; rfl
  ⟨(makeHit_fields demoEnv demoIndex demoMatch1 hdec).2.2.2.2.1 [49] (by decide),
   (makeHit_fields demoEnv demoIndex demoMatch3 hdec).2.2.2.2.1 [51] (by decide),
   ((makeHit_fields demoEnv demoIndex demoMatch3 hdec).2.2.2.2.2.2.1 [1, 2] (by decide)).2
     (by decide)⟩

/-! ## Release of the snapshot (C9) -/

/-- C9: when the plan builds and the aggregations bind, the trace of `Search` holds
one call of `Writer.Reader` and one call of `reader.Close`, the latter as the last
call of the run, whatever the acquisition, the execution, the iteration and the
projection do; when the build or the bind fails it holds neither call. -/
theorem Search_closes_reader_once (env : Env P) (index : Index P) (iQuery : ZincQuery P) :
    (buildsAndBinds env index iQuery →
      (Search env index iQuery).trace.countP Event.isAcquire = 1 ∧
      (Search env index iQuery).trace.countP Event.isClose = 1 ∧
      ∃ pre mid, (Search env index iQuery).trace = pre ++ .acquire :: mid ++ [.close] ∧
        ∀ ev ∈ pre ++ mid, ev.isAcquire = false ∧ ev.isClose = false) ∧
    (¬ buildsAndBinds env index iQuery →
      (Search env index iQuery).trace.countP Event.isAcquire = 0 ∧
      (Search env index iQuery).trace.countP Event.isClose = 0) := by
  constructor
  · intro h
    rw [Search_trace_of_buildsAndBinds env index iQuery h]
    refine ⟨rfl, rfl, [.build (selectBuilder iQuery.SearchType) (clampMaxResults env iQuery),
      .bind], [.search], rfl, ?_⟩
    intro ev hev
    simp only [List.cons_append, List.nil_append, List.mem_cons, List.mem_singleton,
      List.not_mem_nil, or_false] at hev
    rcases hev with hev | hev | hev <;> subst hev <;> exact ⟨rfl, rfl⟩
  · intro h
    cases hb : (buildRequest env (clampMaxResults env iQuery)).2 with
    | some e =>
      rw [Search_of_build_error env index iQuery e hb]
      exact ⟨rfl, rfl⟩
    | none =>
      cases ha : (bindAggregations env index (clampMaxResults env iQuery)
          (buildRequest env (clampMaxResults env iQuery)).1).2 with
      | some e =>
        rw [Search_of_bind_error env index iQuery e hb ha]
        exact ⟨rfl, rfl⟩
      | none => exact absurd ⟨hb, ha⟩ h

/-- C9 at concrete inputs: a run whose acquisition fails and that panics still calls
`reader.Close` once, and a run whose aggregations do not bind calls it never. -/
theorem Search_closes_reader_once_witness :
    (Search demoEnv closedIndex (demoQuery 10 [])).trace.countP Event.isClose = 1 ∧
    (Search demoEnv demoIndex (demoQuery 10 [("by_user", false)])).trace.countP
      Event.isClose = 0 :=
  ⟨((Search_closes_reader_once demoEnv closedIndex (demoQuery 10 [])).1
      (And.intro rfl rfl)).2.1,
   ((Search_closes_reader_once demoEnv demoIndex (demoQuery 10 [("by_user", false)])).2
      (fun h => absurd h.2 (by decide))).2⟩

/-! ## Failures past the binder (C6, C7) -/

/-- With a cursor in hand and a `Close` that returns, `Search` returns a nil error and
an empty `Error` field, whatever the cursor yields (advancement errors, stored-field
visit errors) and whatever `uquery.ParseAggregations` returns. -/
theorem Search_nil_error_of_cursor (env : Env P) (index : Index P) (iQuery : ZincQuery P)
    (dmi : Cursor P) (e c : Option GoError)
    (h : buildsAndBinds env index iQuery)
    (hs : index.WriterReader.1.Search (boundPlan env index iQuery) = .ret (some dmi, e))
    (hc : index.WriterReader.1.Close = .ret c) :
    ∃ resp, (Search env index iQuery).outcome = .ret (resp, none) ∧ resp.Error = "" :=
  ⟨_, Search_outcome_of_cursor env index iQuery dmi e c h hs hc, rfl⟩

/-- When `reader.Search` returns a nil cursor, with or without an error, `Search`
panics at `dmi.Next()`. -/
theorem Search_panics_of_nil_cursor (env : Env P) (index : Index P) (iQuery : ZincQuery P)
    (e : Option GoError) (h : buildsAndBinds env index iQuery)
    (hs : index.WriterReader.1.Search (boundPlan env index iQuery) = .ret (none, e)) :
    (Search env index iQuery).outcome = .panic := by
  rw [Search_of_buildsAndBinds env index iQuery h]
  simp only [runDeferredClose, searchBody, hs]
  split <;> rfl

/-- C6 fails on the code: the plan builds, the aggregations bind, `Writer.Reader()`
returns a nil reader with its error, and `Search` does not return: it panics in
`reader.Search`. -/
theorem Search_panics_on_failed_acquisition :
    buildsAndBinds demoEnv closedIndex (demoQuery 10 []) ∧
    closedIndex.WriterReader.2 = some ⟨"error getting nreal time reader"⟩ ∧
    (Search demoEnv closedIndex (demoQuery 10 [])).outcome = .panic :=
  ⟨And.intro rfl rfl, rfl, rfl⟩

/-- C7 fails on the code: the plan builds, the aggregations bind, the snapshot is
acquired, `reader.Search` returns a nil cursor with its error, and `Search` does not
return: it panics at `dmi.Next()`. -/
theorem Search_panics_on_failed_execution :
    buildsAndBinds demoEnv failingIndex (demoQuery 10 []) ∧
    failingIndex.WriterReader.2 = none ∧
    failingIndex.WriterReader.1.Search (boundPlan demoEnv failingIndex (demoQuery 10 [])) =
      .ret (none, some ⟨"searcher failed"⟩) ∧
    (Search demoEnv failingIndex (demoQuery 10 [])).outcome = .panic :=
  ⟨And.intro rfl rfl, rfl, rfl, rfl⟩

end Zinc
